import Mathlib

/-!
# Verification of the `AiZynthFinder` orchestration layer

Shallow embedding of `src/aizynthfinder/aizynthfinder.py` (the class
`AiZynthFinder`): its configuration record, the `run_from_json` request
pipeline, the `tree_search` budgeted loop, and the `_get_settings`
serialization.  External collaborators (Stock, Policy, SearchTree,
TreeAnalysis, RouteCollection, Molecule) are not part of the source slice;
they are modelled from the spec's collaborator contracts (§6) as abstract
deterministic interfaces, which is noted at each such definition.

Wall-clock time (`time.time()`) is modelled as a read-only stream
`clk : Nat → ℤ` of successive readings (in an arbitrary integral tick
unit — the layer only subtracts and compares readings, so the unit is
immaterial): the k-th call of `time.time()` during `tree_search` returns
`clk k`.  Python exceptions are modelled with
`Except Err`; since an escaping exception leaves all mutations made so far
in place, every stateful operation returns its (possibly partial) final
state next to the `Except` value.
-/

/-- Errors this layer can raise: `keyError k` models Python's `KeyError`
on `params[k]`; `attributeError a` models `AttributeError` (reading
attribute `a` of `None`); `nonterm` marks a run of the search loop that
never terminates (the real code would hang, so no state is observable). -/
inductive Err where
  | keyError (k : String)
  | attributeError (a : String)
  | nonterm
deriving DecidableEq, Repr

/-- A value stored under the `policy`/`policies` keys of a request mapping:
either a single name or a list of names (the real dict is untyped). -/
inductive PolicySel where
  | one (s : String)
  | many (l : List String)
deriving DecidableEq, Repr

/-- `Policy.select` semantics.  Modelled from the spec: "Policy (expansion,
filter): `select(name_or_names)` … property `selection` (ordered set; may be
singular or plural on the expansion side)" — a single name becomes the
one-element selection, a list becomes the selection as given. -/
def selList : PolicySel → List String
  | .one s => [s]
  | .many l => l

/-- The `Configuration` fields this layer reads and writes
(`self.config.…` in the source).  The numeric "float" fields that are only
stored and copied are modelled as rationals, the count fields as naturals,
and `time_limit` in the integral clock-tick unit of the model. -/
structure Config where
  C : ℚ
  max_transforms : Nat
  cutoff_cumulative : ℚ
  cutoff_number : Nat
  return_first : Bool
  time_limit : ℤ
  iteration_limit : Nat
  exclude_target_from_stock : Bool
  filter_cutoff : ℚ
deriving DecidableEq, Repr

/-- The `search_stats` dictionary written by `tree_search`:
`{"returned_first": …, "iterations": …, "time": …}`. -/
structure SearchStats where
  returned_first : Bool
  iterations : Nat
  time : ℤ
deriving DecidableEq, Repr

/-- The tree collaborator.  Modelled from the spec: "Tree: … exposes leaf
selection, expansion, terminal test, promising-child lookup, and
backpropagation".  Nodes are identified by naturals; `select_leaf k` is the
leaf the tree hands out at the k-th loop iteration (1-based); the terminal
test, promising-child lookup and the solved test are deterministic
functions of the node.  `expand` and `backpropagate` have no observable
effect on these functions and are tracked only as counted events. -/
structure TreeOracle where
  select_leaf : Nat → Nat
  is_terminal : Nat → Bool
  promising_child : Nat → Option Nat
  is_solved : Nat → Bool

/-- The inner descent of `tree_search` (source lines 200–204):

    while not leaf.is_terminal():
        child = leaf.promising_child()
        if child:
            child.expand()
            leaf = child

`fuel` bounds the number of loop-condition checks; `none` means the fuel
ran out, i.e. the loop ran at least `fuel` times.  Note the faithful
no-child branch: the body does nothing and the condition is re-checked on
the same leaf. -/
def descend (o : TreeOracle) : Nat → Nat → Option Nat
  | 0, _ => none
  | fuel + 1, leaf =>
    if o.is_terminal leaf then some leaf
    else
      match o.promising_child leaf with
      | some c => descend o fuel c
      | none => descend o fuel leaf

/-- The descent terminates on `leaf`: some fuel suffices. -/
def descendTerminates (o : TreeOracle) (leaf : Nat) : Prop :=
  ∃ fuel, (descend o fuel leaf).isSome

/-- Whether iteration `k` of the search loop ends with a solved final leaf
(given descent fuel `df`): the leaf selected at iteration `k`, descended to
its final leaf, satisfies the solved test. -/
def solvedAt (o : TreeOracle) (df : Nat) (k : Nat) : Bool :=
  match descend o df (o.select_leaf k) with
  | some l => o.is_solved l
  | none => false

/-- Result of the while-loop of `tree_search` (source lines 193–211):
final `search_stats["iterations"]`, number of `backpropagate` calls made,
final `search_stats["returned_first"]`, and the value of `time_past` at
loop exit. -/
structure LoopRes where
  iterations : Nat
  backprops : Nat
  returned_first : Bool
  time_past : ℤ
deriving DecidableEq, Repr

/-- The while-loop of `tree_search` (source lines 193–211), one recursive
call per loop-condition check.  Arguments: remaining `fuel` (the loop is
bounded, see `tree_search_core`), descent fuel `df`, the loop counter `i`
(source line 186 starts it at 1), the running `iterations` and
backpropagation counters, and the current `time_past`.  The reading
`time.time()` taken at the end of iteration `i` (source line 211) is
`clk (i+1)`: reading 0 is `time0` (line 185) and reading 1 is the initial
`time_past` (line 188).  On the `break` path (lines 206–209) `time_past`
is *not* refreshed. -/
def searchLoop (cfg : Config) (o : TreeOracle) (clk : Nat → ℤ) (df : Nat) :
    Nat → Nat → Nat → Nat → ℤ → Option LoopRes
  | 0, _, _, _, _ => none
  | fuel + 1, i, iters, bp, tp =>
    if tp < cfg.time_limit ∧ i ≤ cfg.iteration_limit then
      match descend o df (o.select_leaf i) with
      | none => none
      | some leaf =>
        if cfg.return_first && o.is_solved leaf then
          some ⟨iters + 1, bp + 1, true, tp⟩
        else
          searchLoop cfg o clk df fuel (i + 1) (iters + 1) (bp + 1)
            (clk (i + 1) - clk 0)
    else
      some ⟨iters, bp, false, tp⟩

/-- `tree_search` from line 183 on (statistics reset, loop, final
recording at lines 216–217), for a tree already prepared.  Returns the
returned `time_past`, the final `search_stats`, and the number of
`backpropagate` calls; `none` models a run that never terminates.  Fuel
`iteration_limit + 1` always suffices for the outer loop because `i`
starts at 1 and the condition requires `i ≤ iteration_limit`. -/
def tree_search_core (cfg : Config) (o : TreeOracle) (clk : Nat → ℤ)
    (df : Nat) : Option (ℤ × SearchStats × Nat) :=
  match searchLoop cfg o clk df (cfg.iteration_limit + 1) 1 0 0
      (clk 1 - clk 0) with
  | none => none
  | some r => some (r.time_past, ⟨r.returned_first, r.iterations, r.time_past⟩, r.backprops)

/-- Modelled from the spec's words for comparison with `searchLoop` (claim
about time recording): "Elapsed time is recorded at loop end regardless of
exit reason … the recorded time includes the duration of the final
iteration on the early-return path" — i.e. a variant in which the
early-return path takes a fresh reading `clk (i+1)` before recording. -/
def searchLoopRecordAtExit (cfg : Config) (o : TreeOracle) (clk : Nat → ℤ)
    (df : Nat) : Nat → Nat → Nat → Nat → ℤ → Option LoopRes
  | 0, _, _, _, _ => none
  | fuel + 1, i, iters, bp, tp =>
    if tp < cfg.time_limit ∧ i ≤ cfg.iteration_limit then
      match descend o df (o.select_leaf i) with
      | none => none
      | some leaf =>
        if cfg.return_first && o.is_solved leaf then
          some ⟨iters + 1, bp + 1, true, clk (i + 1) - clk 0⟩
        else
          searchLoopRecordAtExit cfg o clk df fuel (i + 1) (iters + 1) (bp + 1)
            (clk (i + 1) - clk 0)
    else
      some ⟨iters, bp, false, tp⟩

/-- The spec-worded variant of `tree_search_core` built on
`searchLoopRecordAtExit`. -/
def tree_search_core_spec (cfg : Config) (o : TreeOracle) (clk : Nat → ℤ)
    (df : Nat) : Option (ℤ × SearchStats × Nat) :=
  match searchLoopRecordAtExit cfg o clk df (cfg.iteration_limit + 1) 1 0 0
      (clk 1 - clk 0) with
  | none => none
  | some r => some (r.time_past, ⟨r.returned_first, r.iterations, r.time_past⟩, r.backprops)

/-- Analysis object, modelled from the spec's collaborator contract
(`TreeAnalysis(tree, scorer)`): it remembers the identity of the tree it
was built from and the scorer name. -/
structure AnalysisM where
  fromTree : Nat
  scorer : String
deriving DecidableEq, Repr

/-- Route collection, modelled from the spec's collaborator contract
(`RouteCollection.from_analysis(analysis, min_nodes)`). -/
structure RouteC where
  fromTree : Nat
  min_nodes : Nat
deriving DecidableEq, Repr

/-- The `policy`/`policies` entry of the output settings dictionary: the
source emits either the key `"policy"` with the single selection, or the
key `"policies"` with the whole ordered list (source lines 222–228). -/
inductive PolicyOut where
  | single (s : String)
  | plural (l : List String)
deriving DecidableEq, Repr

/-- The dictionary built by `_get_settings` (source lines 230–246). -/
structure Settings where
  stocks : List String
  policy : PolicyOut
  C : ℚ
  max_transforms : Nat
  cutoff_cumulative : ℚ
  cutoff_number : Nat
  smiles : String
  return_first : Bool
  time_limit : ℤ
  iteration_limit : Nat
  exclude_target_from_stock : Bool
  filter_cutoff : ℚ
  filter : Option String
deriving DecidableEq, Repr

/-- The `"trees"` entry of the `run_from_json` response: route dictionaries
from `routes.dicts` (unscored) or `routes.dict_with_scores()` (scored),
identified by the tree they came from. -/
inductive TreesOut where
  | unscored (fromTree : Nat)
  | scored (fromTree : Nat)
deriving DecidableEq, Repr

/-- The `run_from_json` response: `{"request": …, "trees": …}`. -/
structure Output where
  request : Settings
  trees : TreesOut
deriving DecidableEq, Repr

/-- A request mapping, restricted to the keys `run_from_json` reads.  A
`none` field models an absent key (`params[k]` then raises `KeyError`,
`params.get(k, d)` then yields `d`). -/
structure Params where
  stocks : Option (List String)
  policy : Option PolicySel
  policies : Option PolicySel
  filter : Option String
  C : Option ℚ
  max_transforms : Option Nat
  cutoff_cumulative : Option ℚ
  cutoff_number : Option Nat
  smiles : Option String
  return_first : Option Bool
  time_limit : Option ℤ
  iteration_limit : Option Nat
  exclude_target_from_stock : Option Bool
  filter_cutoff : Option ℚ
  score_trees : Option Bool
deriving DecidableEq, Repr

/-- The mutable state of an `AiZynthFinder` instance: the collaborator
selections (Stock, expansion Policy, filter Policy, modelled from the
spec's `select`/`selection` contracts), the stock contents and exclusion
list, the configuration, the target molecule (its SMILES, or `none`), the
owned tree (identified by a fresh number, or `none`), the search
statistics, and the derived analysis and routes.  `trees_constructed`
counts the `SearchTree(...)` constructor calls, so "no tree constructed"
is observable. -/
structure Finder where
  stock_selection : List String
  expansion_selection : List String
  filter_selection : Option String
  stock_members : List String
  excluded : List String
  config : Config
  target : Option String
  tree : Option Nat
  trees_constructed : Nat
  search_stats : Option SearchStats
  analysis : Option AnalysisM
  routes : Option RouteC
deriving DecidableEq, Repr

/-- Stock membership test (`compound in stock`).  Modelled from the spec:
"Stock: … membership test (`compound in stock`)"; the absent target
(`None`) is not a member of any stock. -/
def stockContains (f : Finder) : Option String → Bool
  | some s => f.stock_members.contains s
  | none => false

/-- The property getter `target_smiles` (source lines 65–73):
`self._target_mol.smiles` raises `AttributeError` when no target is set. -/
def target_smiles (f : Finder) : Except Err String :=
  match f.target with
  | some s => .ok s
  | none => .error (.attributeError "smiles")

/-- The property setter `target_mol` (source lines 89–92): it sets
`self.tree = None` and stores the molecule, touching nothing else. -/
def set_target_mol (f : Finder) (mol : String) : Finder :=
  { f with tree := none, target := some mol }

/-- The exclusion phase of `prepare_tree` (source lines 121–124): reset
the exclusion list, then exclude the target from the stock when so
configured and the target is a stock member.  The partial state is kept
when a later statement raises. -/
def prepare_exclusion (f : Finder) : Finder :=
  let f1 := { f with excluded := [] }
  if f1.config.exclude_target_from_stock && stockContains f1 f1.target then
    { f1 with excluded := f1.excluded ++ [f1.target.getD ""] }
  else f1

/-- The remainder of `prepare_tree` (source lines 126–129): read
`target_smiles` (which raises when no target is set, before any tree is
constructed), construct a fresh tree, and clear analysis and routes. -/
def prepare_tree (f : Finder) : (Except Err Unit) × Finder :=
  let f2 := prepare_exclusion f
  match f2.target with
  | none => (.error (.attributeError "smiles"), f2)
  | some _ =>
    (.ok (), { f2 with
      tree := some f2.trees_constructed
      trees_constructed := f2.trees_constructed + 1
      analysis := none
      routes := none })

/-- The loop phase of the `tree_search` method (source lines 183–217):
run the loop (`tree_search_core`) and store the statistics into
`search_stats`; returns `time_past`. -/
def tree_search_run (o : TreeOracle) (clk : Nat → ℤ) (df : Nat)
    (f1 : Finder) : (Except Err ℤ) × Finder :=
  match tree_search_core f1.config o clk df with
  | none => (.error .nonterm, f1)
  | some (t, stats, _) => (.ok t, { f1 with search_stats := some stats })

/-- The method `tree_search` (source lines 172–217) as a state
transformer: prepare a tree when none exists (lines 181–182), then run the
loop (`tree_search_run`). -/
def tree_search (o : TreeOracle) (clk : Nat → ℤ) (df : Nat) (f : Finder) :
    (Except Err ℤ) × Finder :=
  match (match f.tree with
         | none => prepare_tree f
         | some _ => (.ok (), f)) with
  | (.error e, f1) => (.error e, f1)
  | (.ok (), f1) => tree_search_run o clk df f1

/-- `build_routes` (source lines 94–107): builds the analysis from the
current tree and the routes from the analysis.  Modelled from the spec for
the null-tree case: "`build_routes` against a null tree is a programming
error and must fail loudly". -/
def build_routes (f : Finder) (min_nodes : Nat) (scorer : String) :
    (Except Err Unit) × Finder :=
  match f.tree with
  | none => (.error (.attributeError "tree"), f)
  | some t =>
    (.ok (), { f with
      analysis := some ⟨t, scorer⟩
      routes := some ⟨t, min_nodes⟩ })

/-- The singular/plural policy entry of `_get_settings` (source lines
222–228): a one-element selection is emitted as the single value under the
`policy` key, anything else as the whole list under the `policies` key. -/
def settingsPolicy : List String → PolicyOut
  | [s] => .single s
  | l => .plural l

/-- `_get_settings` (source lines 219–246).  Reading `self.target_smiles`
raises when no target is set; the `filter` key is present exactly when the
filter selection is truthy (non-`None`, non-empty). -/
def get_settings (f : Finder) : Except Err Settings :=
  match f.target with
  | none => .error (.attributeError "smiles")
  | some sm =>
    .ok {
      stocks := f.stock_selection
      policy := settingsPolicy f.expansion_selection
      C := f.config.C
      max_transforms := f.config.max_transforms
      cutoff_cumulative := f.config.cutoff_cumulative
      cutoff_number := f.config.cutoff_number
      smiles := sm
      return_first := f.config.return_first
      time_limit := f.config.time_limit
      iteration_limit := f.config.iteration_limit
      exclude_target_from_stock := f.config.exclude_target_from_stock
      filter_cutoff := f.config.filter_cutoff
      filter := match f.filter_selection with
        | some s => if s.isEmpty then none else some s
        | none => none }

/-- The parameter-reading prefix of `run_from_json` (source lines
140–155), statement by statement and in source order.  `params[k]` on an
absent key raises `KeyError(k)` with all earlier mutations kept;
`params.get("policy", params.get("policies", ""))` falls back to the
empty string, never raising. -/
def applyParams (f : Finder) (p : Params) : (Except Err Unit) × Finder :=
  match p.stocks with
  | none => (.error (.keyError "stocks"), f)
  | some ss =>
  let f1 := { f with stock_selection := ss }
  let psel := match p.policy with
    | some v => v
    | none => match p.policies with
      | some v => v
      | none => PolicySel.one ""
  let f2 := { f1 with expansion_selection := selList psel }
  let f3 := match p.filter with
    | some fv => { f2 with filter_selection := some fv }
    | none => { f2 with filter_selection := none }
  match p.C with
  | none => (.error (.keyError "C"), f3)
  | some c =>
  let f4 := { f3 with config := { f3.config with C := c } }
  match p.max_transforms with
  | none => (.error (.keyError "max_transforms"), f4)
  | some mt =>
  let f5 := { f4 with config := { f4.config with max_transforms := mt } }
  match p.cutoff_cumulative with
  | none => (.error (.keyError "cutoff_cumulative"), f5)
  | some cc =>
  let f6 := { f5 with config := { f5.config with cutoff_cumulative := cc } }
  match p.cutoff_number with
  | none => (.error (.keyError "cutoff_number"), f6)
  | some cn =>
  let f7 := { f6 with config := { f6.config with cutoff_number := cn } }
  match p.smiles with
  | none => (.error (.keyError "smiles"), f7)
  | some sm =>
  let f8 := set_target_mol f7 sm
  match p.return_first with
  | none => (.error (.keyError "return_first"), f8)
  | some rf =>
  let f9 := { f8 with config := { f8.config with return_first := rf } }
  match p.time_limit with
  | none => (.error (.keyError "time_limit"), f9)
  | some tl =>
  let f10 := { f9 with config := { f9.config with time_limit := tl } }
  match p.iteration_limit with
  | none => (.error (.keyError "iteration_limit"), f10)
  | some il =>
  let f11 := { f10 with config := { f10.config with iteration_limit := il } }
  match p.exclude_target_from_stock with
  | none => (.error (.keyError "exclude_target_from_stock"), f11)
  | some ex =>
  let f12 := { f11 with config := { f11.config with exclude_target_from_stock := ex } }
  match p.filter_cutoff with
  | none => (.error (.keyError "filter_cutoff"), f12)
  | some fc =>
  (.ok (), { f12 with config := { f12.config with filter_cutoff := fc } })

/-- The identity of the route collection serialized into the `"trees"`
entry (`routes.dicts` / `routes.dict_with_scores()`). -/
def routesId (f4 : Finder) : Nat :=
  match f4.routes with
  | some r => r.fromTree
  | none => 0

/-- The response record itself (source lines 160–170). -/
def run_finish (f4 : Finder) (p : Params) : (Except Err Output) × Finder :=
  match get_settings f4 with
  | .error e => (.error e, f4)
  | .ok st =>
    if p.score_trees.getD false then
      (.ok ⟨st, .scored (routesId f4)⟩, f4)
    else
      (.ok ⟨st, .unscored (routesId f4)⟩, f4)

/-- `run_from_json` from the `build_routes` call on (source line 159). -/
def run_after_search (f3 : Finder) (p : Params) :
    (Except Err Output) × Finder :=
  match build_routes f3 5 "state score" with
  | (.error e, f4) => (.error e, f4)
  | (.ok (), f4) => run_finish f4 p

/-- `run_from_json` from the `tree_search` call on (source line 158). -/
def run_after_prepare (o : TreeOracle) (clk : Nat → ℤ) (df : Nat)
    (f2 : Finder) (p : Params) : (Except Err Output) × Finder :=
  match tree_search o clk df f2 with
  | (.error e, f3) => (.error e, f3)
  | (.ok _, f3) => run_after_search f3 p

/-- `run_from_json` from the `prepare_tree` call on (source line 157). -/
def run_after_params (o : TreeOracle) (clk : Nat → ℤ) (df : Nat)
    (f1 : Finder) (p : Params) : (Except Err Output) × Finder :=
  match prepare_tree f1 with
  | (.error e, f2) => (.error e, f2)
  | (.ok (), f2) => run_after_prepare o clk df f2 p

/-- `run_from_json` (source lines 131–170): read the request parameters,
then `prepare_tree`, `tree_search`, `build_routes`, and assemble the
response. -/
def run_from_json (o : TreeOracle) (clk : Nat → ℤ) (df : Nat) (f : Finder)
    (p : Params) : (Except Err Output) × Finder :=
  match applyParams f p with
  | (.error e, f1) => (.error e, f1)
  | (.ok (), f1) => run_after_params o clk df f1 p

/-! ## Helper lemmas about the descent and the loop -/

/-- More fuel preserves a successful descent result. -/
theorem descend_fuel_mono (o : TreeOracle) :
    ∀ {fuel fuel' l r : Nat}, fuel ≤ fuel' →
      descend o fuel l = some r → descend o fuel' l = some r := by
  intro fuel
  induction fuel with
  | zero => intro fuel' l r _ h; simp [descend] at h
  | succ n ih =>
    intro fuel' l r hle h
    obtain ⟨m, rfl⟩ : ∃ m, fuel' = m + 1 := ⟨fuel' - 1, by omega⟩
    rw [descend] at h ⊢
    by_cases ht : o.is_terminal l
    · rw [if_pos ht] at h ⊢; exact h
    · rw [if_neg ht] at h ⊢
      cases hc : o.promising_child l with
      | some c => rw [hc] at h; exact ih (by omega) h
      | none => rw [hc] at h; exact ih (by omega) h

/-- The loop's iteration counter gains at most one per remaining budgeted
pass: a successful run starting at loop counter `i` with counter value
`iters` ends with at most `iters + (iteration_limit + 1 - i)`. -/
theorem searchLoop_iter_bound (cfg : Config) (o : TreeOracle) (clk : Nat → ℤ)
    (df : Nat) :
    ∀ {fuel i iters bp : Nat} {tp : ℤ} {r : LoopRes},
      searchLoop cfg o clk df fuel i iters bp tp = some r →
      r.iterations ≤ iters + (cfg.iteration_limit + 1 - i) := by
  intro fuel
  induction fuel with
  | zero => intro i iters bp tp r h; simp [searchLoop] at h
  | succ n ih =>
    intro i iters bp tp r h
    rw [searchLoop] at h
    split at h
    · next hcond =>
      cases hd : descend o df (o.select_leaf i) with
      | none => rw [hd] at h; exact absurd h (by simp)
      | some leaf =>
        rw [hd] at h
        simp only at h
        by_cases hsol : (cfg.return_first && o.is_solved leaf) = true
        · rw [if_pos hsol] at h
          have hr := Option.some.inj h
          subst hr
          simp only
          omega
        · rw [if_neg hsol] at h
          have := ih h
          omega
    · next hcond =>
      have hr := Option.some.inj h
      subst hr
      simp only
      omega

/-- Time bookkeeping of the loop.  Starting iteration `i` (with
`iters = i - 1` completed iterations) the current `time_past` is the
reading `clk i - clk 0`; at exit, `time_past` is `clk (iterations) - clk 0`
on the early-return path and `clk (iterations + 1) - clk 0` otherwise. -/
theorem searchLoop_time (cfg : Config) (o : TreeOracle) (clk : Nat → ℤ)
    (df : Nat) :
    ∀ {fuel i iters bp : Nat} {r : LoopRes}, i = iters + 1 →
      searchLoop cfg o clk df fuel i iters bp (clk i - clk 0) = some r →
      r.time_past =
        clk (r.iterations + (if r.returned_first then 0 else 1)) - clk 0 := by
  intro fuel
  induction fuel with
  | zero => intro i iters bp r _ h; simp [searchLoop] at h
  | succ n ih =>
    intro i iters bp r hi h
    rw [searchLoop] at h
    split at h
    · next hcond =>
      cases hd : descend o df (o.select_leaf i) with
      | none => rw [hd] at h; exact absurd h (by simp)
      | some leaf =>
        rw [hd] at h
        simp only at h
        by_cases hsol : (cfg.return_first && o.is_solved leaf) = true
        · rw [if_pos hsol] at h
          have hr := Option.some.inj h
          subst hr
          simp [hi]
        · rw [if_neg hsol] at h
          exact ih (by omega) h
    · next hcond =>
      have hr := Option.some.inj h
      subst hr
      simp [hi]

/-! ## Concrete fixtures used by witnesses and counterexamples -/

/-- A clock that advances one tick per reading. -/
def clkId : Nat → ℤ := fun n => (n : ℤ)

/-- A tree oracle whose leaves are all terminal and where exactly the leaf
selected at iteration 3 is solved. -/
def oracleSolve3 : TreeOracle where
  select_leaf := fun k => k
  is_terminal := fun _ => true
  promising_child := fun _ => none
  is_solved := fun n => n == 3

/-- A return-first configuration with generous budgets. -/
def cfgRF : Config where
  C := 0
  max_transforms := 0
  cutoff_cumulative := 0
  cutoff_number := 0
  return_first := true
  time_limit := 1000
  iteration_limit := 10
  exclude_target_from_stock := false
  filter_cutoff := 0

/-- `cfgRF` with the time budget set to zero. -/
def cfgZeroTime : Config :=
  { cfgRF with time_limit := 0, return_first := false }

/-! ## Claims about the search loop -/

/-- C7: for every configuration (and tree/clock behaviour), when
`tree_search` returns, the `iterations` count recorded in `search_stats`
never exceeds the configured `iteration_limit`. -/
theorem iterations_le_iteration_limit (cfg : Config) (o : TreeOracle)
    (clk : Nat → ℤ) (df : Nat) (t : ℤ) (stats : SearchStats) (bp : Nat)
    (h : tree_search_core cfg o clk df = some (t, stats, bp)) :
    stats.iterations ≤ cfg.iteration_limit := by
  unfold tree_search_core at h
  cases hl : searchLoop cfg o clk df (cfg.iteration_limit + 1) 1 0 0
      (clk 1 - clk 0) with
  | none => rw [hl] at h; cases h
  | some r =>
    rw [hl] at h
    simp only [Option.some.injEq, Prod.mk.injEq] at h
    obtain ⟨-, hstats, -⟩ := h
    have hb := searchLoop_iter_bound cfg o clk df hl
    rw [← hstats]
    simp only
    omega

/-- Witness for C7: a concrete run (solved at iteration 3, early return)
ends with 3 iterations, within the limit of 10. -/
theorem iterations_le_iteration_limit_witness :
    tree_search_core cfgRF oracleSolve3 clkId 1 = some (3, ⟨true, 3, 3⟩, 3) ∧
    SearchStats.iterations ⟨true, 3, 3⟩ ≤ cfgRF.iteration_limit :=
  ⟨by decide,
   iterations_le_iteration_limit cfgRF oracleSolve3 clkId 1 3 ⟨true, 3, 3⟩ 3
     (by decide)⟩

/-- C8: with `time_limit = 0` (and a monotone wall clock) the loop body
never runs: `tree_search` performs zero iterations and records
`iterations = 0`. -/
theorem zero_time_limit_zero_iterations (cfg : Config) (o : TreeOracle)
    (clk : Nat → ℤ) (df : Nat) (htl : cfg.time_limit = 0)
    (hmono : clk 0 ≤ clk 1) :
    tree_search_core cfg o clk df =
      some (clk 1 - clk 0, ⟨false, 0, clk 1 - clk 0⟩, 0) := by
  unfold tree_search_core
  rw [searchLoop]
  have hcond : ¬(clk 1 - clk 0 < cfg.time_limit ∧ 1 ≤ cfg.iteration_limit) := by
    rintro ⟨h1, -⟩
    rw [htl] at h1
    linarith
  rw [if_neg hcond]

/-- Witness for C8: a concrete zero-time-budget run returns immediately
with zero iterations. -/
theorem zero_time_limit_zero_iterations_witness :
    cfgZeroTime.time_limit = 0 ∧ clkId 0 ≤ clkId 1 ∧
    tree_search_core cfgZeroTime oracleSolve3 clkId 1 =
      some (clkId 1 - clkId 0, ⟨false, 0, clkId 1 - clkId 0⟩, 0) :=
  ⟨by decide, by decide,
   zero_time_limit_zero_iterations cfgZeroTime oracleSolve3 clkId 1
     (by decide) (by decide)⟩

/-- C5 (amended): the returned `time_past` is exactly what is stored in
`search_stats["time"]` (the assignment happens at loop end on every exit
path), but the stored value is the reading taken *before* the final
iteration when the loop exits by early return (`returned_first`), and the
reading taken after the last iteration otherwise.  The early-return path
therefore excludes the final iteration's duration. -/
theorem elapsed_time_recording (cfg : Config) (o : TreeOracle)
    (clk : Nat → ℤ) (df : Nat) (t : ℤ) (stats : SearchStats) (bp : Nat)
    (h : tree_search_core cfg o clk df = some (t, stats, bp)) :
    t = stats.time ∧
    stats.time =
      clk (stats.iterations + (if stats.returned_first then 0 else 1)) -
        clk 0 := by
  unfold tree_search_core at h
  cases hl : searchLoop cfg o clk df (cfg.iteration_limit + 1) 1 0 0
      (clk 1 - clk 0) with
  | none => rw [hl] at h; cases h
  | some r =>
    rw [hl] at h
    simp only [Option.some.injEq, Prod.mk.injEq] at h
    obtain ⟨rfl, hstats, rfl⟩ := h
    have ht := searchLoop_time cfg o clk df rfl hl
    rw [← hstats]
    exact ⟨rfl, ht⟩

/-- Witness for C5's amended statement: a concrete early-return run where
the recorded time is the pre-iteration reading. -/
theorem elapsed_time_recording_witness :
    tree_search_core cfgRF oracleSolve3 clkId 1 = some (3, ⟨true, 3, 3⟩, 3) ∧
    ((3 : ℤ) = SearchStats.time ⟨true, 3, 3⟩ ∧
      SearchStats.time ⟨true, 3, 3⟩ =
        clkId (SearchStats.iterations ⟨true, 3, 3⟩ +
          (if SearchStats.returned_first ⟨true, 3, 3⟩ then 0 else 1)) -
          clkId 0) :=
  ⟨by decide,
   elapsed_time_recording cfgRF oracleSolve3 clkId 1 3 ⟨true, 3, 3⟩ 3
     (by decide)⟩

/-- A clock that advances ten ticks per reading, so iteration durations
are visible. -/
def clkTen : Nat → ℤ := fun n => 10 * (n : ℤ)

/-- A tree oracle where every leaf is terminal and solved. -/
def oracleAllSolved : TreeOracle where
  select_leaf := fun k => k
  is_terminal := fun _ => true
  promising_child := fun _ => none
  is_solved := fun _ => true

/-- C5 counterexample: on the early-return path the code records the
reading taken before the winning iteration (10 ticks), not a measurement
at loop end (which a fresh reading — the spec-worded variant
`tree_search_core_spec` — would give: 20 ticks): the recorded time does
not include the final iteration's duration. -/
theorem elapsed_time_early_return_counterexample :
    tree_search_core cfgRF oracleAllSolved clkTen 1 =
      some (10, ⟨true, 1, 10⟩, 1) ∧
    tree_search_core_spec cfgRF oracleAllSolved clkTen 1 =
      some (20, ⟨true, 1, 20⟩, 1) ∧
    tree_search_core cfgRF oracleAllSolved clkTen 1 ≠
      tree_search_core_spec cfgRF oracleAllSolved clkTen 1 := by
  refine ⟨by decide, by decide, ?_⟩
  decide

/-- Return-first behaviour of the loop: with `return_first` on and `k` the
first iteration whose final leaf is solved, a successful run starting
before `k` never counts past `k`, returns first exactly when it reaches
iteration `k`, and then has backpropagated exactly `k` times (the winning
iteration's backpropagation included). -/
theorem searchLoop_return_first (cfg : Config) (o : TreeOracle)
    (clk : Nat → ℤ) (df k : Nat) (hrf : cfg.return_first = true)
    (hk : solvedAt o df k = true) :
    ∀ {fuel i iters bp : Nat} {tp : ℤ} {r : LoopRes},
      i = iters + 1 → iters = bp → i ≤ k →
      (∀ j, i ≤ j → j < k → solvedAt o df j = false) →
      searchLoop cfg o clk df fuel i iters bp tp = some r →
      r.iterations ≤ k ∧ (r.returned_first = true ↔ r.iterations = k) ∧
        (r.returned_first = true → r.backprops = k) := by
  intro fuel
  induction fuel with
  | zero => intro i iters bp tp r _ _ _ _ h; simp [searchLoop] at h
  | succ n ih =>
    intro i iters bp tp r hi hb hik hun h
    rw [searchLoop] at h
    split at h
    · next hcond =>
      cases hd : descend o df (o.select_leaf i) with
      | none => rw [hd] at h; exact absurd h (by simp)
      | some leaf =>
        rw [hd] at h
        simp only at h
        by_cases hik' : i = k
        · have hsol : o.is_solved leaf = true := by
            have := hk
            rw [← hik', solvedAt, hd] at this
            exact this
          rw [hrf, hsol] at h
          simp only [Bool.and_self, if_pos] at h
          have hr := Option.some.inj h
          subst hr
          refine ⟨by simp; omega, by simp; omega, ?_⟩
          intro
          simp only
          omega
        · have hsolF : solvedAt o df i = false :=
            hun i le_rfl (by omega)
          have hsol : o.is_solved leaf = false := by
            rw [solvedAt, hd] at hsolF
            exact hsolF
          rw [hsol, Bool.and_false] at h
          simp only [Bool.false_eq_true, if_neg] at h
          exact ih (by omega) (by omega) (by omega)
            (fun j hj hjk => hun j (by omega) hjk) h
    · next hcond =>
      have hr := Option.some.inj h
      subst hr
      refine ⟨by simp; omega, by simp; omega, ?_⟩
      intro habs
      simp at habs

/-- C6: with `return_first = true`, if iteration `k` is the first whose
backpropagated final leaf is solved, a returning run records at most `k`
iterations, records `returned_first = true` exactly when it reached
iteration `k`, and in that case performed exactly `k` backpropagations —
the winning iteration's statistics (its counter increment and its
backpropagation) are fully recorded before the loop terminates. -/
theorem return_first_stops_at_first_solution (cfg : Config) (o : TreeOracle)
    (clk : Nat → ℤ) (df k : Nat) (t : ℤ) (stats : SearchStats) (bp : Nat)
    (hrf : cfg.return_first = true) (hk1 : 1 ≤ k)
    (hk : solvedAt o df k = true)
    (hfirst : ∀ j ∈ Finset.Ico 1 k, solvedAt o df j = false)
    (hrun : tree_search_core cfg o clk df = some (t, stats, bp)) :
    stats.iterations ≤ k ∧
      (stats.returned_first = true ↔ stats.iterations = k) ∧
      (stats.returned_first = true → bp = k) := by
  unfold tree_search_core at hrun
  cases hl : searchLoop cfg o clk df (cfg.iteration_limit + 1) 1 0 0
      (clk 1 - clk 0) with
  | none => rw [hl] at hrun; cases hrun
  | some r =>
    rw [hl] at hrun
    simp only [Option.some.injEq, Prod.mk.injEq] at hrun
    obtain ⟨rfl, hstats, rfl⟩ := hrun
    have hmain := searchLoop_return_first cfg o clk df k hrf hk rfl rfl hk1
      (fun j hj hjk => hfirst j (Finset.mem_Ico.mpr ⟨hj, hjk⟩)) hl
    rw [← hstats]
    exact hmain

/-- Witness for C6: the concrete run solved first at iteration 3 stops
there with `returned_first = true` and 3 backpropagations. -/
theorem return_first_stops_at_first_solution_witness :
    tree_search_core cfgRF oracleSolve3 clkId 1 = some (3, ⟨true, 3, 3⟩, 3) ∧
    (SearchStats.iterations ⟨true, 3, 3⟩ ≤ 3 ∧
      (SearchStats.returned_first ⟨true, 3, 3⟩ = true ↔
        SearchStats.iterations ⟨true, 3, 3⟩ = 3) ∧
      (SearchStats.returned_first ⟨true, 3, 3⟩ = true → (3 : Nat) = 3)) :=
  ⟨by decide,
   return_first_stops_at_first_solution cfgRF oracleSolve3 clkId 1 3 3
     ⟨true, 3, 3⟩ 3 (by decide) (by decide) (by decide) (by decide)
     (by decide)⟩

/-- A tree oracle with a non-terminal leaf that has no promising child:
the descent loop body then does nothing and the condition is re-checked
forever. -/
def oracleStuck : TreeOracle where
  select_leaf := fun k => k
  is_terminal := fun _ => false
  promising_child := fun _ => none
  is_solved := fun _ => false

/-- C1 counterexample: when the current leaf is not terminal and the tree
reports no promising child, the descent does *not* stop — the loop
re-queries the same leaf forever (no amount of fuel completes it), because
the `if child:` statement has no `else: break`. -/
theorem descent_no_child_counterexample :
    ¬ descendTerminates oracleStuck 0 := by
  rintro ⟨fuel, h⟩
  have hnone : ∀ n, descend oracleStuck n 0 = none := by
    intro n
    induction n with
    | zero => rfl
    | succ m ih =>
      rw [descend]
      simp only [oracleStuck, Bool.false_eq_true, if_neg]
      exact ih
  rw [hnone fuel] at h
  simp at h

/-- Bounded descent: if every leaf with no promising child is terminal and
promising children strictly decrease a measure `μ`, then fuel `μ leaf + 1`
completes the descent at a terminal leaf. -/
theorem descend_succeeds_aux (o : TreeOracle) (μ : Nat → Nat)
    (hterm : ∀ n, o.promising_child n = none → o.is_terminal n = true)
    (hdec : ∀ n c, o.promising_child n = some c → μ c < μ n) :
    ∀ m leaf, μ leaf ≤ m →
      ∃ r, descend o (m + 1) leaf = some r ∧ o.is_terminal r = true := by
  intro m
  induction m with
  | zero =>
    intro leaf hμ
    rw [descend]
    by_cases ht : o.is_terminal leaf
    · exact ⟨leaf, by rw [if_pos ht], ht⟩
    · cases hc : o.promising_child leaf with
      | none => exact absurd (hterm leaf hc) ht
      | some c => exact absurd (hdec leaf c hc) (by omega)
  | succ m ih =>
    intro leaf hμ
    rw [descend]
    by_cases ht : o.is_terminal leaf
    · exact ⟨leaf, by rw [if_pos ht], ht⟩
    · rw [if_neg ht]
      cases hc : o.promising_child leaf with
      | none => exact absurd (hterm leaf hc) ht
      | some c =>
        exact ih c (by have := hdec leaf c hc; omega)

/-- C1 (amended): the inner descent's only exit is the current leaf
testing terminal; a non-terminal leaf with no promising child makes the
loop spin (see the counterexample).  Under the collaborator guarantees
that a leaf without a promising child is terminal and that promising
children strictly descend a (finite-tree) measure, the descent terminates
without error at a terminal leaf, ending the iteration's expansion chain
so the iteration proceeds to backpropagation. -/
theorem inner_descent_terminates (o : TreeOracle) (μ : Nat → Nat)
    (hterm : ∀ n, o.promising_child n = none → o.is_terminal n = true)
    (hdec : ∀ n c, o.promising_child n = some c → μ c < μ n)
    (leaf : Nat) :
    ∃ r, descend o (μ leaf + 1) leaf = some r ∧ o.is_terminal r = true :=
  descend_succeeds_aux o μ hterm hdec (μ leaf) leaf le_rfl

/-- A descending chain oracle: node `n` hands out child `n - 1` and only
node `0` is terminal. -/
def oracleChain : TreeOracle where
  select_leaf := fun k => k
  is_terminal := fun n => n == 0
  promising_child := fun n => if n == 0 then none else some (n - 1)
  is_solved := fun _ => false

/-- Witness for C1's amended statement: on the chain oracle the descent
from leaf 2 terminates at the terminal leaf. -/
theorem inner_descent_terminates_witness :
    ∃ r, descend oracleChain (2 + 1) 2 = some r ∧
      oracleChain.is_terminal r = true :=
  inner_descent_terminates oracleChain (fun n => n)
    (by
      intro n h
      by_cases h0 : n = 0
      · simp [oracleChain, h0]
      · simp [oracleChain, h0] at h)
    (by
      intro n c h
      by_cases h0 : n = 0
      · simp [oracleChain, h0] at h
      · simp [oracleChain, h0] at h
        show c < n
        omega)
    2

/-! ## Preservation lemmas for the pipeline stages -/

theorem prepare_exclusion_target (f : Finder) :
    (prepare_exclusion f).target = f.target := by
  simp only [prepare_exclusion]
  split <;> rfl

theorem prepare_exclusion_analysis (f : Finder) :
    (prepare_exclusion f).analysis = f.analysis := by
  simp only [prepare_exclusion]
  split <;> rfl

theorem prepare_exclusion_routes (f : Finder) :
    (prepare_exclusion f).routes = f.routes := by
  simp only [prepare_exclusion]
  split <;> rfl

theorem prepare_exclusion_trees_constructed (f : Finder) :
    (prepare_exclusion f).trees_constructed = f.trees_constructed := by
  simp only [prepare_exclusion]
  split <;> rfl

theorem prepare_exclusion_expansion_selection (f : Finder) :
    (prepare_exclusion f).expansion_selection = f.expansion_selection := by
  simp only [prepare_exclusion]
  split <;> rfl

/-- When `prepare_tree` succeeds it has cleared both derived results. -/
theorem prepare_tree_ok_clears (f : Finder)
    (hok : (prepare_tree f).1 = .ok ()) :
    (prepare_tree f).2.analysis = none ∧ (prepare_tree f).2.routes = none := by
  rw [prepare_tree] at hok ⊢
  cases ht : (prepare_exclusion f).target with
  | none => rw [ht] at hok; exact Except.noConfusion hok
  | some s => exact ⟨rfl, rfl⟩

/-! ## Finder fixtures -/

/-- A freshly constructed controller: empty selections, no target, no
tree, no results (source lines 45–63), with `cfgRF` as configuration and a
one-compound stock. -/
def finderInit : Finder where
  stock_selection := []
  expansion_selection := []
  filter_selection := none
  stock_members := ["water"]
  excluded := []
  config := cfgRF
  target := none
  tree := none
  trees_constructed := 0
  search_stats := none
  analysis := none
  routes := none

/-- A controller carrying a finished search: target, tree, analysis and
routes all present. -/
def finderWithResults : Finder :=
  { finderInit with
    target := some "CCO"
    tree := some 0
    trees_constructed := 1
    analysis := some ⟨0, "state score"⟩
    routes := some ⟨0, 5⟩ }

/-! ## Claims about the controller state -/

/-- C10: on a controller with no target set, reading `target_smiles`
raises an attribute error, and `tree_search` on a controller that also has
no tree implicitly prepares — which reads `target_smiles` — and therefore
fails with the same error instead of silently searching without a
target. -/
theorem no_target_read_and_search_fail (o : TreeOracle) (clk : Nat → ℤ)
    (df : Nat) (f : Finder) (htarget : f.target = none)
    (htree : f.tree = none) :
    target_smiles f = .error (.attributeError "smiles") ∧
    (tree_search o clk df f).1 = .error (.attributeError "smiles") := by
  have hpt : prepare_tree f =
      (.error (.attributeError "smiles"), prepare_exclusion f) := by
    rw [prepare_tree]
    have he : (prepare_exclusion f).target = none := by
      rw [prepare_exclusion_target, htarget]
    rw [he]
  constructor
  · rw [target_smiles, htarget]
  · rw [tree_search, htree, hpt]

/-- Witness for C10: the fresh controller has neither target nor tree, and
both reads fail. -/
theorem no_target_read_and_search_fail_witness :
    target_smiles finderInit = .error (.attributeError "smiles") ∧
    (tree_search oracleSolve3 clkId 1 finderInit).1 =
      .error (.attributeError "smiles") :=
  no_target_read_and_search_fail oracleSolve3 clkId 1 finderInit rfl rfl

/-- C4 counterexample: assigning a new target does *not* clear the
analysis and routes — on a controller holding results from a previous
tree, both remain readable after the target setter runs. -/
theorem target_setter_stale_results_counterexample :
    ¬ ((set_target_mol finderWithResults "CCC").analysis = none ∧
       (set_target_mol finderWithResults "CCC").routes = none) := by
  decide

/-- C4 (amended): the `target_mol` setter clears only the tree (the target
is replaced, the previous analysis and routes stay readable unchanged);
the analysis and the routes are cleared later, when `prepare_tree`
re-prepares successfully. -/
theorem target_setter_clears_only_tree (f : Finder) (mol : String) :
    (set_target_mol f mol).tree = none ∧
    (set_target_mol f mol).target = some mol ∧
    (set_target_mol f mol).analysis = f.analysis ∧
    (set_target_mol f mol).routes = f.routes ∧
    ((prepare_tree f).1 = .ok () →
      (prepare_tree f).2.analysis = none ∧
      (prepare_tree f).2.routes = none) :=
  ⟨rfl, rfl, rfl, rfl, fun hok => prepare_tree_ok_clears f hok⟩

/-- Witness for C4's amended statement: concrete setter run keeps the old
analysis value, and a successful concrete `prepare_tree` clears it. -/
theorem target_setter_clears_only_tree_witness :
    (set_target_mol finderWithResults "CCC").tree = none ∧
    (set_target_mol finderWithResults "CCC").analysis =
      finderWithResults.analysis ∧
    (prepare_tree finderWithResults).2.analysis = none := by
  refine ⟨(target_setter_clears_only_tree finderWithResults "CCC").1,
    (target_setter_clears_only_tree finderWithResults "CCC").2.2.1, ?_⟩
  exact ((target_setter_clears_only_tree finderWithResults "CCC").2.2.2.2
    rfl).1

/-! ## Key-error analysis of the request pipeline -/

/-- Whether an error is a missing-field (`KeyError`) failure. -/
def isKeyError : Err → Bool
  | .keyError _ => true
  | _ => false

/-- Whether an outcome is a missing-field (`KeyError`) failure. -/
def isKeyErrorB {α : Type} : Except Err α → Bool
  | .error e => isKeyError e
  | .ok _ => false

/-- Some required key, other than the `policy`/`policies` pair, is absent
from the request mapping. -/
def requiredMissing (p : Params) : Prop :=
  p.stocks = none ∨ p.C = none ∨ p.max_transforms = none ∨
  p.cutoff_cumulative = none ∨ p.cutoff_number = none ∨ p.smiles = none ∨
  p.return_first = none ∨ p.time_limit = none ∨ p.iteration_limit = none ∨
  p.exclude_target_from_stock = none ∨ p.filter_cutoff = none

instance (p : Params) : Decidable (requiredMissing p) := by
  unfold requiredMissing
  infer_instance

theorem applyParams_trees_constructed (f : Finder) (p : Params) :
    (applyParams f p).2.trees_constructed = f.trees_constructed := by
  simp only [applyParams]
  repeat' split
  all_goals rfl

theorem applyParams_error_of_missing (f : Finder) (p : Params)
    (hm : requiredMissing p) :
    ∃ k, (applyParams f p).1 = .error (.keyError k) := by
  simp only [applyParams]
  rcases h1 : p.stocks with - | ss
  · exact ⟨"stocks", rfl⟩
  rcases h2 : p.C with - | c
  · exact ⟨"C", rfl⟩
  rcases h3 : p.max_transforms with - | mt
  · exact ⟨"max_transforms", rfl⟩
  rcases h4 : p.cutoff_cumulative with - | cc
  · exact ⟨"cutoff_cumulative", rfl⟩
  rcases h5 : p.cutoff_number with - | cn
  · exact ⟨"cutoff_number", rfl⟩
  rcases h6 : p.smiles with - | sm
  · exact ⟨"smiles", rfl⟩
  rcases h7 : p.return_first with - | rb
  · exact ⟨"return_first", rfl⟩
  rcases h8 : p.time_limit with - | tl
  · exact ⟨"time_limit", rfl⟩
  rcases h9 : p.iteration_limit with - | il
  · exact ⟨"iteration_limit", rfl⟩
  rcases h10 : p.exclude_target_from_stock with - | ex
  · exact ⟨"exclude_target_from_stock", rfl⟩
  rcases h11 : p.filter_cutoff with - | fc
  · exact ⟨"filter_cutoff", rfl⟩
  rcases hm with h | h | h | h | h | h | h | h | h | h | h <;> simp_all

theorem applyParams_keyError_implies_missing (f : Finder) (p : Params)
    (h : isKeyErrorB (applyParams f p).1 = true) : requiredMissing p := by
  rw [applyParams] at h
  rcases h1 : p.stocks with - | ss
  · exact Or.inl h1
  rw [h1] at h
  rcases h2 : p.C with - | c
  · exact Or.inr (Or.inl h2)
  rw [h2] at h
  rcases h3 : p.max_transforms with - | mt
  · exact Or.inr (Or.inr (Or.inl h3))
  rw [h3] at h
  rcases h4 : p.cutoff_cumulative with - | cc
  · exact Or.inr (Or.inr (Or.inr (Or.inl h4)))
  rw [h4] at h
  rcases h5 : p.cutoff_number with - | cn
  · exact Or.inr (Or.inr (Or.inr (Or.inr (Or.inl h5))))
  rw [h5] at h
  rcases h6 : p.smiles with - | sm
  · exact Or.inr (Or.inr (Or.inr (Or.inr (Or.inr (Or.inl h6)))))
  rw [h6] at h
  rcases h7 : p.return_first with - | rb
  · exact Or.inr (Or.inr (Or.inr (Or.inr (Or.inr (Or.inr (Or.inl h7))))))
  rw [h7] at h
  rcases h8 : p.time_limit with - | tl
  · exact Or.inr (Or.inr (Or.inr (Or.inr (Or.inr (Or.inr (Or.inr
      (Or.inl h8)))))))
  rw [h8] at h
  rcases h9 : p.iteration_limit with - | il
  · exact Or.inr (Or.inr (Or.inr (Or.inr (Or.inr (Or.inr (Or.inr (Or.inr
      (Or.inl h9))))))))
  rw [h9] at h
  rcases h10 : p.exclude_target_from_stock with - | ex
  · exact Or.inr (Or.inr (Or.inr (Or.inr (Or.inr (Or.inr (Or.inr (Or.inr
      (Or.inr (Or.inl h10)))))))))
  rw [h10] at h
  rcases h11 : p.filter_cutoff with - | fc
  · exact Or.inr (Or.inr (Or.inr (Or.inr (Or.inr (Or.inr (Or.inr (Or.inr
      (Or.inr (Or.inr h11)))))))))
  rw [h11] at h
  simp [isKeyErrorB, isKeyError] at h

theorem prepare_tree_not_keyError (f : Finder) :
    isKeyErrorB (prepare_tree f).1 = false := by
  rw [prepare_tree]
  cases (prepare_exclusion f).target <;> rfl

theorem get_settings_not_keyError (f : Finder) :
    isKeyErrorB (get_settings f) = false := by
  rw [get_settings]
  cases f.target <;> rfl

theorem build_routes_not_keyError (f : Finder) (mn : Nat) (sc : String) :
    isKeyErrorB (build_routes f mn sc).1 = false := by
  rw [build_routes]
  cases f.tree <;> rfl

theorem tree_search_run_not_keyError (o : TreeOracle) (clk : Nat → ℤ)
    (df : Nat) (f1 : Finder) :
    isKeyErrorB (tree_search_run o clk df f1).1 = false := by
  rw [tree_search_run]
  cases hco : tree_search_core f1.config o clk df with
  | none => rfl
  | some val =>
    obtain ⟨t1, st1, b1⟩ := val
    rfl

theorem tree_search_not_keyError (o : TreeOracle) (clk : Nat → ℤ) (df : Nat)
    (f : Finder) : isKeyErrorB (tree_search o clk df f).1 = false := by
  rw [tree_search]
  cases htr : f.tree with
  | none =>
    cases hpt : prepare_tree f with
    | mk r2 f2 =>
      cases r2 with
      | error e =>
        have h := prepare_tree_not_keyError f
        rw [hpt] at h
        exact h
      | ok u =>
        cases u
        exact tree_search_run_not_keyError o clk df f2
  | some t =>
    exact tree_search_run_not_keyError o clk df f

theorem run_finish_not_keyError (f4 : Finder) (p : Params) :
    isKeyErrorB (run_finish f4 p).1 = false := by
  rw [run_finish]
  cases hgs : get_settings f4 with
  | error e =>
    have h := get_settings_not_keyError f4
    rw [hgs] at h
    exact h
  | ok st =>
    dsimp only
    split <;> rfl

theorem run_after_search_not_keyError (f3 : Finder) (p : Params) :
    isKeyErrorB (run_after_search f3 p).1 = false := by
  rw [run_after_search]
  cases hbr : build_routes f3 5 "state score" with
  | mk r4 f4 =>
    cases r4 with
    | error e =>
      have h := build_routes_not_keyError f3 5 "state score"
      rw [hbr] at h
      exact h
    | ok u =>
      cases u
      exact run_finish_not_keyError f4 p

theorem run_after_prepare_not_keyError (o : TreeOracle) (clk : Nat → ℤ)
    (df : Nat) (f2 : Finder) (p : Params) :
    isKeyErrorB (run_after_prepare o clk df f2 p).1 = false := by
  rw [run_after_prepare]
  cases hts : tree_search o clk df f2 with
  | mk r3 f3 =>
    cases r3 with
    | error e =>
      have h := tree_search_not_keyError o clk df f2
      rw [hts] at h
      exact h
    | ok t3 => exact run_after_search_not_keyError f3 p

theorem run_after_params_not_keyError (o : TreeOracle) (clk : Nat → ℤ)
    (df : Nat) (f1 : Finder) (p : Params) :
    isKeyErrorB (run_after_params o clk df f1 p).1 = false := by
  rw [run_after_params]
  cases hpt : prepare_tree f1 with
  | mk r2 f2 =>
    cases r2 with
    | error e =>
      have h := prepare_tree_not_keyError f1
      rw [hpt] at h
      exact h
    | ok u =>
      cases u
      exact run_after_prepare_not_keyError o clk df f2 p

/-- `run_from_json` produces a `KeyError` exactly when the parameter
reading prefix does: every later stage fails only with attribute errors or
by hanging. -/
theorem run_from_json_keyError_eq (o : TreeOracle) (clk : Nat → ℤ)
    (df : Nat) (f : Finder) (p : Params) :
    isKeyErrorB (run_from_json o clk df f p).1 =
      isKeyErrorB (applyParams f p).1 := by
  rw [run_from_json]
  cases hap : applyParams f p with
  | mk r1 f1 =>
    cases r1 with
    | error e => rfl
    | ok u =>
      cases u
      exact run_after_params_not_keyError o clk df f1 p

/-- An error escaping the parameter-reading prefix propagates unchanged as
the result of `run_from_json`. -/
theorem run_propagates_params_error (o : TreeOracle) (clk : Nat → ℤ)
    (df : Nat) (f : Finder) (p : Params) (e : Err)
    (h : (applyParams f p).1 = .error e) :
    (run_from_json o clk df f p).1 = .error e := by
  rw [run_from_json]
  cases hap : applyParams f p with
  | mk r1 f1 =>
    rw [hap] at h
    cases r1 with
    | error e1 => cases h; rfl
    | ok u => exact Except.noConfusion h

/-! ## Expansion-selection preservation across the pipeline -/

theorem prepare_tree_expansion_selection (f : Finder) :
    (prepare_tree f).2.expansion_selection = f.expansion_selection := by
  rw [prepare_tree]
  cases ht : (prepare_exclusion f).target <;>
    exact prepare_exclusion_expansion_selection f

theorem tree_search_run_expansion_selection (o : TreeOracle) (clk : Nat → ℤ)
    (df : Nat) (f1 : Finder) :
    (tree_search_run o clk df f1).2.expansion_selection =
      f1.expansion_selection := by
  rw [tree_search_run]
  cases hco : tree_search_core f1.config o clk df with
  | none => rfl
  | some val =>
    obtain ⟨t1, st1, b1⟩ := val
    rfl

theorem tree_search_expansion_selection (o : TreeOracle) (clk : Nat → ℤ)
    (df : Nat) (f : Finder) :
    (tree_search o clk df f).2.expansion_selection =
      f.expansion_selection := by
  rw [tree_search]
  cases htr : f.tree with
  | none =>
    cases hpt : prepare_tree f with
    | mk r2 f2 =>
      have h2 : f2.expansion_selection = f.expansion_selection := by
        have h := prepare_tree_expansion_selection f
        rw [hpt] at h
        exact h
      cases r2 with
      | error e => exact h2
      | ok u =>
        cases u
        exact (tree_search_run_expansion_selection o clk df f2).trans h2
  | some t => exact tree_search_run_expansion_selection o clk df f

theorem build_routes_expansion_selection (f : Finder) (mn : Nat)
    (sc : String) :
    (build_routes f mn sc).2.expansion_selection = f.expansion_selection := by
  rw [build_routes]
  cases f.tree <;> rfl

/-- `run_finish` never changes the controller state. -/
theorem run_finish_state (f4 : Finder) (p : Params) :
    (run_finish f4 p).2 = f4 := by
  rw [run_finish]
  cases hgs : get_settings f4 with
  | error e => rfl
  | ok st =>
    dsimp only
    split <;> rfl

theorem run_after_search_expansion_selection (f3 : Finder) (p : Params) :
    (run_after_search f3 p).2.expansion_selection =
      f3.expansion_selection := by
  rw [run_after_search]
  cases hbr : build_routes f3 5 "state score" with
  | mk r4 f4 =>
    have h4 : f4.expansion_selection = f3.expansion_selection := by
      have h := build_routes_expansion_selection f3 5 "state score"
      rw [hbr] at h
      exact h
    cases r4 with
    | error e => exact h4
    | ok u =>
      cases u
      have h := run_finish_state f4 p
      calc (run_finish f4 p).2.expansion_selection
          = f4.expansion_selection := by rw [h]
        _ = f3.expansion_selection := h4

theorem run_after_prepare_expansion_selection (o : TreeOracle)
    (clk : Nat → ℤ) (df : Nat) (f2 : Finder) (p : Params) :
    (run_after_prepare o clk df f2 p).2.expansion_selection =
      f2.expansion_selection := by
  rw [run_after_prepare]
  cases hts : tree_search o clk df f2 with
  | mk r3 f3 =>
    have h3 : f3.expansion_selection = f2.expansion_selection := by
      have h := tree_search_expansion_selection o clk df f2
      rw [hts] at h
      exact h
    cases r3 with
    | error e => exact h3
    | ok t3 => exact (run_after_search_expansion_selection f3 p).trans h3

theorem run_after_params_expansion_selection (o : TreeOracle)
    (clk : Nat → ℤ) (df : Nat) (f1 : Finder) (p : Params) :
    (run_after_params o clk df f1 p).2.expansion_selection =
      f1.expansion_selection := by
  rw [run_after_params]
  cases hpt : prepare_tree f1 with
  | mk r2 f2 =>
    have h2 : f2.expansion_selection = f1.expansion_selection := by
      have h := prepare_tree_expansion_selection f1
      rw [hpt] at h
      exact h
    cases r2 with
    | error e => exact h2
    | ok u =>
      cases u
      exact (run_after_prepare_expansion_selection o clk df f2 p).trans h2

/-- With the stocks key present and both policy keys absent, the selection
after the parameter prefix is the defaulted empty-string singleton. -/
theorem applyParams_expansion_selection_default (f : Finder) (p : Params)
    (ss : List String) (hst : p.stocks = some ss) (hpol : p.policy = none)
    (hpols : p.policies = none) :
    (applyParams f p).2.expansion_selection = [""] := by
  simp only [applyParams, hst, hpol, hpols]
  repeat' split
  all_goals rfl

theorem run_expansion_selection_default (o : TreeOracle) (clk : Nat → ℤ)
    (df : Nat) (f : Finder) (p : Params) (ss : List String)
    (hst : p.stocks = some ss) (hpol : p.policy = none)
    (hpols : p.policies = none) :
    (run_from_json o clk df f p).2.expansion_selection = [""] := by
  have hap := applyParams_expansion_selection_default f p ss hst hpol hpols
  rw [run_from_json]
  cases hA : applyParams f p with
  | mk r1 f1 =>
    rw [hA] at hap
    cases r1 with
    | error e => exact hap
    | ok u =>
      cases u
      exact (run_after_params_expansion_selection o clk df f1 p).trans hap

/-! ## The `policy`/`policies` key of a successful response -/

theorem get_settings_ok_policy (f : Finder) (st : Settings)
    (h : get_settings f = .ok st) :
    st.policy = settingsPolicy f.expansion_selection := by
  rw [get_settings] at h
  cases ht : f.target with
  | none => rw [ht] at h; exact Except.noConfusion h
  | some sm =>
    rw [ht] at h
    have hi := Except.ok.inj h
    rw [← hi]

theorem run_finish_ok_request (f4 : Finder) (p : Params) (out : Output)
    (h : (run_finish f4 p).1 = .ok out) :
    out.request.policy = settingsPolicy f4.expansion_selection := by
  rw [run_finish] at h
  cases hgs : get_settings f4 with
  | error e => rw [hgs] at h; exact Except.noConfusion h
  | ok st =>
    rw [hgs] at h
    have hst : st.policy = settingsPolicy f4.expansion_selection :=
      get_settings_ok_policy f4 st hgs
    dsimp only at h
    split at h
    · have hi := Except.ok.inj h
      rw [← hi]
      exact hst
    · have hi := Except.ok.inj h
      rw [← hi]
      exact hst

theorem run_after_search_ok_request (f3 : Finder) (p : Params) (out : Output)
    (h : (run_after_search f3 p).1 = .ok out) :
    out.request.policy =
      settingsPolicy ((run_after_search f3 p).2.expansion_selection) := by
  rw [run_after_search] at h ⊢
  cases hbr : build_routes f3 5 "state score" with
  | mk r4 f4 =>
    rw [hbr] at h
    cases r4 with
    | error e => exact Except.noConfusion h
    | ok u =>
      cases u
      dsimp only at h ⊢
      rw [run_finish_state]
      exact run_finish_ok_request f4 p out h

theorem run_after_prepare_ok_request (o : TreeOracle) (clk : Nat → ℤ)
    (df : Nat) (f2 : Finder) (p : Params) (out : Output)
    (h : (run_after_prepare o clk df f2 p).1 = .ok out) :
    out.request.policy =
      settingsPolicy
        ((run_after_prepare o clk df f2 p).2.expansion_selection) := by
  rw [run_after_prepare] at h ⊢
  cases hts : tree_search o clk df f2 with
  | mk r3 f3 =>
    rw [hts] at h
    cases r3 with
    | error e => exact Except.noConfusion h
    | ok t3 =>
      dsimp only at h ⊢
      exact run_after_search_ok_request f3 p out h

theorem run_after_params_ok_request (o : TreeOracle) (clk : Nat → ℤ)
    (df : Nat) (f1 : Finder) (p : Params) (out : Output)
    (h : (run_after_params o clk df f1 p).1 = .ok out) :
    out.request.policy =
      settingsPolicy
        ((run_after_params o clk df f1 p).2.expansion_selection) := by
  rw [run_after_params] at h ⊢
  cases hpt : prepare_tree f1 with
  | mk r2 f2 =>
    rw [hpt] at h
    cases r2 with
    | error e => exact Except.noConfusion h
    | ok u =>
      cases u
      dsimp only at h ⊢
      exact run_after_prepare_ok_request o clk df f2 p out h

/-- A successful `run_from_json` response carries, under its request
record, exactly the singular/plural serialization of the final expansion
selection. -/
theorem run_ok_request (o : TreeOracle) (clk : Nat → ℤ) (df : Nat)
    (f : Finder) (p : Params) (out : Output)
    (h : (run_from_json o clk df f p).1 = .ok out) :
    out.request.policy =
      settingsPolicy ((run_from_json o clk df f p).2.expansion_selection) := by
  rw [run_from_json] at h ⊢
  cases hA : applyParams f p with
  | mk r1 f1 =>
    rw [hA] at h
    cases r1 with
    | error e => exact Except.noConfusion h
    | ok u =>
      cases u
      dsimp only at h ⊢
      exact run_after_params_ok_request o clk df f1 p out h

/-! ## Request fixtures -/

/-- A complete request except for the `time_limit` key. -/
def pNoTime : Params where
  stocks := some ["zinc"]
  policy := some (.one "uspto")
  policies := none
  filter := none
  C := some 2
  max_transforms := some 6
  cutoff_cumulative := some 1
  cutoff_number := some 50
  smiles := some "CCO"
  return_first := some false
  time_limit := none
  iteration_limit := some 100
  exclude_target_from_stock := some true
  filter_cutoff := some 0
  score_trees := none

/-- A complete request in which neither `policy` nor `policies` occurs. -/
def pNoPolicy : Params :=
  { pNoTime with policy := none, time_limit := some 1 }

/-- A complete request with a single expansion-policy selection. -/
def pSingle : Params :=
  { pNoTime with time_limit := some 1 }

/-! ## Claims about `run_from_json` -/

/-- C2 (amended): a request lacking `time_limit` makes `run_from_json`
raise a missing-configuration (`KeyError`) error before any tree is
constructed; however, the Stock and Policy selections have already been
updated from the request by the time the error is raised, so the claim's
"no side effects on Stock/Policy state" part fails (see the
counterexample). -/
theorem missing_time_limit_error_before_tree (o : TreeOracle)
    (clk : Nat → ℤ) (df : Nat) (f : Finder) (p : Params)
    (htl : p.time_limit = none) :
    (∃ k, (run_from_json o clk df f p).1 = .error (.keyError k)) ∧
    (run_from_json o clk df f p).2.trees_constructed =
      f.trees_constructed := by
  have hm : requiredMissing p := by
    unfold requiredMissing
    tauto
  obtain ⟨k, hk⟩ := applyParams_error_of_missing f p hm
  constructor
  · exact ⟨k, run_propagates_params_error o clk df f p _ hk⟩
  · rw [run_from_json]
    cases hA : applyParams f p with
    | mk r1 f1 =>
      have htc := applyParams_trees_constructed f p
      rw [hA] at htc hk
      cases r1 with
      | error e => exact htc
      | ok u => exact Except.noConfusion hk

/-- Witness for C2's amended statement at a concrete request lacking only
`time_limit`. -/
theorem missing_time_limit_error_before_tree_witness :
    pNoTime.time_limit = none ∧
    ((∃ k, (run_from_json oracleSolve3 clkId 1 finderInit pNoTime).1 =
        .error (.keyError k)) ∧
      (run_from_json oracleSolve3 clkId 1 finderInit
          pNoTime).2.trees_constructed = finderInit.trees_constructed) :=
  ⟨rfl, missing_time_limit_error_before_tree oracleSolve3 clkId 1 finderInit
    pNoTime rfl⟩

/-- C2 counterexample: on a concrete request lacking only `time_limit`,
the error is `KeyError "time_limit"` and no tree is constructed, but the
Stock and expansion-Policy selections are no longer in their initial
state: the selection updates run before `time_limit` is read. -/
theorem missing_time_limit_side_effects_counterexample :
    pNoTime.time_limit = none ∧
    (run_from_json oracleSolve3 clkId 1 finderInit pNoTime).1 =
      .error (.keyError "time_limit") ∧
    (run_from_json oracleSolve3 clkId 1 finderInit
        pNoTime).2.trees_constructed = finderInit.trees_constructed ∧
    ¬ ((run_from_json oracleSolve3 clkId 1 finderInit
          pNoTime).2.stock_selection = finderInit.stock_selection ∧
        (run_from_json oracleSolve3 clkId 1 finderInit
          pNoTime).2.expansion_selection = finderInit.expansion_selection) := by
  refine ⟨rfl, rfl, rfl, ?_⟩
  intro hcon
  exact absurd hcon.1 (by decide)

/-- C3 (amended): a required key other than the policy selection being
absent makes `run_from_json` fail with a missing-field error, and only
those keys do: when neither `policy` nor `policies` is present no
missing-field error arises; instead the empty-string default of
`params.get("policy", params.get("policies", ""))` is selected, so the
expansion selection becomes `[""]`. -/
theorem missing_required_key_behaviour (o : TreeOracle) (clk : Nat → ℤ)
    (df : Nat) (f : Finder) (p : Params) (hpol : p.policy = none)
    (hpols : p.policies = none) :
    ((∃ k, (run_from_json o clk df f p).1 = .error (.keyError k)) ↔
      requiredMissing p) ∧
    (∀ ss, p.stocks = some ss →
      (run_from_json o clk df f p).2.expansion_selection = [""]) := by
  constructor
  · constructor
    · rintro ⟨k, hk⟩
      apply applyParams_keyError_implies_missing f p
      rw [← run_from_json_keyError_eq o clk df f p, hk]
      rfl
    · intro hm
      obtain ⟨k, hk⟩ := applyParams_error_of_missing f p hm
      exact ⟨k, run_propagates_params_error o clk df f p _ hk⟩
  · intro ss hst
    exact run_expansion_selection_default o clk df f p ss hst hpol hpols

/-- Witness for C3's amended statement at a concrete request with both
policy keys absent. -/
theorem missing_required_key_behaviour_witness :
    pNoPolicy.policy = none ∧ pNoPolicy.policies = none ∧
    (((∃ k, (run_from_json oracleSolve3 clkId 1 finderInit pNoPolicy).1 =
        .error (.keyError k)) ↔ requiredMissing pNoPolicy) ∧
      (∀ ss, pNoPolicy.stocks = some ss →
        (run_from_json oracleSolve3 clkId 1 finderInit
          pNoPolicy).2.expansion_selection = [""])) :=
  ⟨rfl, rfl, missing_required_key_behaviour oracleSolve3 clkId 1 finderInit
    pNoPolicy rfl rfl⟩

/-- C3 counterexample: a concrete request with every required key present
except both policy keys does *not* fail with a missing-field error — the
call substitutes the empty-string default and selects it. -/
theorem missing_policy_keys_no_error_counterexample :
    pNoPolicy.policy = none ∧ pNoPolicy.policies = none ∧
    isKeyErrorB (run_from_json oracleSolve3 clkId 1 finderInit
      pNoPolicy).1 = false ∧
    (run_from_json oracleSolve3 clkId 1 finderInit
      pNoPolicy).2.expansion_selection = [""] := by
  refine ⟨rfl, rfl, ?_, ?_⟩ <;> decide

/-- C9: on every successful `run_from_json`, the output request record
serializes the expansion-policy selection asymmetrically: exactly one
active selection is emitted as the single value under the singular key,
two or more as the full ordered list under the plural key. -/
theorem run_from_json_policy_key_asymmetry (o : TreeOracle) (clk : Nat → ℤ)
    (df : Nat) (f : Finder) (p : Params) (out : Output)
    (hrun : (run_from_json o clk df f p).1 = .ok out) :
    (∀ s, (run_from_json o clk df f p).2.expansion_selection = [s] →
      out.request.policy = .single s) ∧
    (∀ l, (run_from_json o clk df f p).2.expansion_selection = l →
      2 ≤ l.length → out.request.policy = .plural l) := by
  have h := run_ok_request o clk df f p out hrun
  constructor
  · intro s hs
    rw [h, hs]
    rfl
  · intro l hl h2
    rw [h, hl]
    cases l with
    | nil => simp at h2
    | cons a t =>
      cases t with
      | nil => simp at h2
      | cons b t2 => rfl

/-- The concrete response of `run_from_json` on `pSingle`. -/
def outSingle : Output :=
  ⟨⟨["zinc"], .single "uspto", 2, 6, 1, 50, "CCO", false, 1, 100, true, 0,
    none⟩, .unscored 0⟩

/-- Witness for C9: a concrete successful run with the single selection
`["uspto"]` emits it under the singular key. -/
theorem run_from_json_policy_key_asymmetry_witness :
    (run_from_json oracleSolve3 clkId 1 finderInit pSingle).1 =
      .ok outSingle ∧
    (run_from_json oracleSolve3 clkId 1 finderInit
      pSingle).2.expansion_selection = ["uspto"] ∧
    outSingle.request.policy = .single "uspto" := by
  refine ⟨rfl, rfl, ?_⟩
  exact (run_from_json_policy_key_asymmetry oracleSolve3 clkId 1 finderInit
    pSingle outSingle rfl).1 "uspto" rfl
